import Mathlib

/-!
Verification of the FundFinder recommendation scoring engine.

This file is a shallow embedding of the engine implemented in
`utils/data_fetcher.py` and `utils/cache_handler.py`:

* Python `float` values are modelled as exact rationals (`ℚ`); the one value
  that the code treats specially, a NaN `historical_return`, is modelled as
  `Option ℚ` with `none` standing for NaN (`pd.isna`).
* Python dictionaries built by `fetch_stock_details` are modelled by the
  fixed-schema structures `Metrics` and `Profile` below; the keys stored by
  `routes.py` into `session['investment_params']` are exactly the `Profile`
  fields.
* `str.lower()` is modelled by `pyLower`, character-wise ASCII lowering.
-/

set_option maxHeartbeats 1600000

/-- Model of Python `str.lower()` (ASCII case folding, character by
character, as performed on the sector tags used by this code base). -/
def pyLower (s : String) : String :=
  ⟨s.data.map Char.toLower⟩

/-- Embedding of `standardize_sector` (data_fetcher.py, lines 535-549):
`sector_map.get(sector.lower(), sector.lower())` where every value in
`sector_map` is `'tech'`. -/
def standardize_sector (sector : String) : String :=
  let l := pyLower sector
  if l = "technology" then "tech"
  else if l = "information technology" then "tech"
  else if l = "it services" then "tech"
  else if l = "semiconductors" then "tech"
  else if l = "software" then "tech"
  else if l = "communication services" then "tech"
  else if l = "internet content & information" then "tech"
  else if l = "electronic components" then "tech"
  else if l = "semiconductor equipment & materials" then "tech"
  else if l = "computer hardware" then "tech"
  else l

/-- The seven sector tags that key the static taxonomy tables. -/
def known_sectors : List String :=
  ["tech", "healthcare", "finance", "energy", "consumer", "real_estate", "utilities"]

/-- Embedding of `get_sector_stocks` (data_fetcher.py, lines 199-238):
`sector_mapping.get(sector.lower(), [])`.  The lists are transcribed
verbatim from the source (including its duplicated entries in `energy`). -/
def get_sector_stocks (sector : String) : List String :=
  let l := pyLower sector
  if l = "tech" then
    ["AAPL", "MSFT", "GOOGL", "META", "NVDA", "AMD", "INTC", "CSCO", "ADBE", "CRM",
     "TSM", "AVGO", "ORCL", "ACN", "ASML", "TXN", "QCOM", "IBM", "NOW", "INTU",
     "ADI", "MU", "AMAT", "LRCX", "SNPS", "CDNS", "KLAC", "PANW", "WDAY", "TEAM"]
  else if l = "healthcare" then
    ["JNJ", "UNH", "PFE", "ABT", "TMO", "MRK", "DHR", "ABBV", "BMY", "AMGN",
     "LLY", "CVS", "ISRG", "GILD", "REGN", "VRTX", "MRNA", "BIIB", "ILMN", "IDXX",
     "BSX", "ZBH", "BAX", "EW", "SGEN", "HUM", "CI", "BDX", "IQV", "ZTS"]
  else if l = "finance" then
    ["JPM", "BAC", "WFC", "C", "GS", "MS", "BLK", "AXP", "SPGI", "CME",
     "SCHW", "USB", "PNC", "TFC", "AIG", "MMC", "AON", "MET", "PRU", "ALL",
     "CB", "PGR", "TRV", "AJG", "FITB", "SIVB", "TROW", "DFS", "NTRS", "STT"]
  else if l = "energy" then
    ["XOM", "CVX", "COP", "SLB", "EOG", "PXD", "PSX", "VLO", "KMI", "WMB",
     "MPC", "OXY", "DVN", "HAL", "BKR", "HES", "FANG", "CVI", "CTRA", "MRO",
     "OKE", "PSX", "EPD", "ET", "TRGP", "LNG", "WMB", "MPLX", "CEQP", "DCP"]
  else if l = "consumer" then
    ["PG", "KO", "PEP", "WMT", "COST", "NKE", "MCD", "DIS", "SBUX", "HD",
     "TGT", "LOW", "EL", "CL", "KMB", "GIS", "K", "HSY", "KHC", "STZ",
     "MDLZ", "KR", "SYY", "TSN", "CAG", "HRL", "MKC", "CPB", "SJM", "TAP"]
  else if l = "real_estate" then
    ["AMT", "PLD", "CCI", "EQIX", "PSA", "DLR", "O", "WELL", "AVB", "EQR",
     "SPG", "VICI", "INVH", "MAA", "UDR", "ARE", "BXP", "VTR", "HST", "KIM",
     "REG", "FRT", "CPT", "EXR", "PEAK", "HIW", "DEI", "SLG", "ACC", "AIV"]
  else if l = "utilities" then
    ["NEE", "DUK", "SO", "D", "AEP", "EXC", "SRE", "XEL", "WEC", "ES",
     "ED", "EIX", "PEG", "ETR", "FE", "AEE", "CMS", "CNP", "DTE", "PPL",
     "AES", "AWK", "LNT", "EVRG", "NI", "PNW", "NRG", "IDA", "ATO", "OGE"]
  else []

/-- Embedding of `get_sector_etfs` (data_fetcher.py, lines 241-359):
`etf_mapping.get(sector.lower(), [])` (the `utilities` list repeats `PUI`,
as in the source). -/
def get_sector_etfs (sector : String) : List String :=
  let l := pyLower sector
  if l = "tech" then
    ["XLK", "VGT", "IYW", "FTEC", "RYT", "QTEC", "IGV", "SOXX", "SMH", "ARKK",
     "ARKW", "QQQM", "WCLD", "AIQ", "BOTZ"]
  else if l = "healthcare" then
    ["XLV", "VHT", "IYH", "FHLC", "RYH", "IBB", "XBI", "ARKG", "IHI", "GNOM"]
  else if l = "finance" then
    ["XLF", "VFH", "IYF", "FNCL", "RYF", "KBE", "KRE", "IAI", "IYG", "KBWB",
     "FTXO", "QABA", "DPST", "FINU", "FINZ"]
  else if l = "energy" then
    ["XLE", "VDE", "IYE", "FENY", "RYE", "PXE", "IEO", "PXJ", "FILL", "ICLN",
     "TAN", "FAN", "QCLN", "PBW", "ERTH"]
  else if l = "consumer" then
    ["XLP", "VDC", "IYK", "FSTA", "RHS", "XLY", "VCR", "IYC", "FDIS", "RCD",
     "PEZ", "IEDI", "WANT", "PSL", "FXG"]
  else if l = "real_estate" then
    ["XLRE", "VNQ", "IYR", "FREL", "RWR", "SCHH", "ICF", "USRT", "REZ", "BBRE",
     "RWX", "MORT", "SRET", "ROOF", "NETL"]
  else if l = "utilities" then
    ["XLU", "VPU", "IDU", "FUTY", "RYU", "PUI", "URA", "FXU", "PSCU", "UTES",
     "JHMU", "UTSL", "PUI", "NLR", "KBUY"]
  else []

/-- Risk appetite enumeration; `routes.py` only ever stores the strings
`low` / `medium` / `high` (forced by the form's select choices), and
`matches_investment_criteria` indexes `risk_ranges` with it (a `KeyError`
for anything else), so an enumeration is the faithful model. -/
inductive RiskLevel where
  | low
  | medium
  | high
deriving DecidableEq, Repr

/-- The user profile, exactly the keys that `routes.py` stores into
`session['investment_params']` and `get_recommendations` reads.
`dividend_priority` is kept as a raw string because the code compares it
with the literals `'2'` and `'1'`. -/
structure Profile where
  risk_level : RiskLevel
  desired_return : ℚ
  duration : ℤ
  sectors : List String
  budget : ℚ
  dividend_priority : String
  ethical_considerations : List String
  investment_types : List String
deriving DecidableEq, Repr

/-- The per-symbol metrics snapshot: exactly the dictionary built by
`fetch_stock_details` (data_fetcher.py, lines 118-136), flattened.
`historical_return` is `Option ℚ`, with `none` standing for the NaN the
provider can yield (the only field the code guards with `pd.isna`). -/
structure Metrics where
  symbol : String
  name : String
  sector : String
  industry : String
  quoteType : String
  beta : ℚ
  marketCap : ℚ
  regularMarketPrice : ℚ
  dividend_yield : ℚ
  historical_return : Option ℚ
  volatility : ℚ
  totalEsg : ℚ
  environmentScore : ℚ
  socialScore : ℚ
  governanceScore : ℚ
deriving DecidableEq, Repr

/-- Embedding of `get_investment_types` (data_fetcher.py, lines 7-41). The
Python function reads the keys `quoteType`, `marketCap` and `dividendYield`
of its argument, so it is embedded as a function of those three values
(the `set()` it accumulates is modelled by `dedup` of the appended
contributions; only membership is ever used downstream). -/
def get_investment_types (quoteType : String) (marketCap dividendYield : ℚ) :
    List String :=
  let qt := pyLower quoteType
  ((if qt = "equity" ∨ qt = "stock" ∨ qt = "" then ["stocks"] else []) ++
   (if qt = "etf" then ["etf"] else []) ++
   (if qt = "mutualfund" then ["mutual_funds"] else []) ++
   (if qt = "bond" then ["bonds"] else []) ++
   (if marketCap > 10000000000 then ["etf", "mutual_funds"] else []) ++
   (if dividendYield > 0 then ["mutual_funds"] else [])).dedup

/-- The beta band selected by `risk_ranges[risk_level]` in
`matches_investment_criteria` (data_fetcher.py, lines 578-586); the
infinite tuple bounds `(-inf, 1.1)`, `(0.7, 1.4)`, `(0.9, inf)` become
one-sided/two-sided rational constraints. -/
def beta_in_range (rl : RiskLevel) (beta : ℚ) : Prop :=
  match rl with
  | .low => beta ≤ 11/10
  | .medium => 7/10 ≤ beta ∧ beta ≤ 14/10
  | .high => 9/10 ≤ beta

instance (rl : RiskLevel) (beta : ℚ) : Decidable (beta_in_range rl beta) := by
  unfold beta_in_range
  cases rl <;> infer_instance

/-- Embedding of `matches_investment_criteria` (data_fetcher.py, lines
551-616).  Note that the Python call `get_investment_types(stock_data)`
looks up the key `dividendYield`, which `fetch_stock_details` never writes
(it stores `dividend_yield`), so that lookup always defaults to `0`. -/
def matches_investment_criteria (m : Metrics) (p : Profile) : Bool :=
  let stock_types := get_investment_types m.quoteType m.marketCap 0
  let valid_types := if p.investment_types.isEmpty then ["stocks"] else p.investment_types
  if ¬ stock_types.any (fun t => valid_types.contains t) then false
  else if standardize_sector m.sector ∉ p.sectors.map standardize_sector then false
  else if ¬ beta_in_range p.risk_level m.beta then false
  else if m.historical_return.getD 0 < p.desired_return * (1/4) then false
  else if p.dividend_priority = "2" ∧ m.dividend_yield < 3/2 then false
  else if p.dividend_priority = "1" ∧ m.dividend_yield < 3/10 then false
  else true

/-- Exemplar profile (Scenario A of the spec): low risk, 5% desired
return, tech sector, no dividend priority, stocks only. -/
def profileA : Profile :=
  { risk_level := .low, desired_return := 5, duration := 10,
    sectors := ["tech"], budget := 5000, dividend_priority := "0",
    ethical_considerations := [], investment_types := ["stocks"] }

/-- Exemplar metrics snapshot that passes the filter against `profileA`. -/
def metricsA : Metrics :=
  { symbol := "AAPL", name := "Apple Inc.", sector := "tech",
    industry := "Consumer Electronics", quoteType := "equity", beta := 1,
    marketCap := 2000000000000, regularMarketPrice := 150,
    dividend_yield := 1/2, historical_return := some 6, volatility := 1/5,
    totalEsg := 20, environmentScore := 10, socialScore := 10,
    governanceScore := 10 }

/-- The scoring weights dictionary of `calculate_overall_score`
(data_fetcher.py, lines 666-673). -/
def weights : List (String × ℚ) :=
  [("risk", 25/100), ("return", 30/100), ("sector", 20/100),
   ("dividend", 15/100), ("ethical", 5/100), ("budget", 5/100)]

/-- The `risk` sub-score (data_fetcher.py, lines 677-684). -/
def riskScore (m : Metrics) (p : Profile) : ℚ :=
  match p.risk_level with
  | .high => min (m.beta / 2) 1
  | .medium => 1 - |m.beta - 1|
  | .low => max 0 (1 - m.beta / 2)

/-- The `return` sub-score (data_fetcher.py, lines 687-696). -/
def returnScore (m : Metrics) (p : Profile) : ℚ :=
  match m.historical_return with
  | none => 1/2
  | some h =>
    if h ≥ p.desired_return then 1
    else max (1/2) (h / p.desired_return)

/-- The `sector` sub-score (data_fetcher.py, lines 698-701). -/
def sectorScore (m : Metrics) (p : Profile) : ℚ :=
  if standardize_sector m.sector ∈ p.sectors.map standardize_sector then 1 else 0

/-- The `dividend` sub-score (data_fetcher.py, lines 703-710). -/
def dividendScore (m : Metrics) (p : Profile) : ℚ :=
  if p.dividend_priority = "2" then min (m.dividend_yield / 2) 1
  else if p.dividend_priority = "1" then min (m.dividend_yield / 1) 1
  else 1

/-- The `ethical` sub-score (data_fetcher.py, lines 712-726): the mean of
the requested ESG components divided by 100; `1` when no tags were
requested (the Python truthiness test on the list), `0` when tags were
requested but none of the four known ones matched (`np.mean` of an empty
accumulator is guarded by the `if ethical_scores` test yielding `0.0`). -/
def ethicalScore (m : Metrics) (p : Profile) : ℚ :=
  if p.ethical_considerations.isEmpty then 1
  else
    let ethical_scores := p.ethical_considerations.filterMap (fun c =>
      if c = "esg" then some (m.totalEsg / 100)
      else if c = "green" then some (m.environmentScore / 100)
      else if c = "social" then some (m.socialScore / 100)
      else if c = "governance" then some (m.governanceScore / 100)
      else none)
    if ethical_scores.isEmpty then 0
    else ethical_scores.sum / ethical_scores.length

/-- Embedding of `calculate_overall_score` (data_fetcher.py, lines
664-740): the weighted sum of the six sub-scores; the `budget` sub-score
is the constant `1.0` (line 729). -/
def calculate_overall_score (m : Metrics) (p : Profile) : ℚ :=
  riskScore m p * (25/100) + returnScore m p * (30/100) +
  sectorScore m p * (20/100) + dividendScore m p * (15/100) +
  ethicalScore m p * (5/100) + 1 * (5/100)

/-- Data-model invariants of an `InstrumentMetrics` snapshot (spec section
3): beta, dividend yield, market cap and volatility are non-negative and
the ESG components lie in [0, 100]. -/
def ValidMetrics (m : Metrics) : Prop :=
  0 ≤ m.beta ∧ 0 ≤ m.dividend_yield ∧ 0 ≤ m.marketCap ∧ 0 ≤ m.volatility ∧
  (0 ≤ m.totalEsg ∧ m.totalEsg ≤ 100) ∧
  (0 ≤ m.environmentScore ∧ m.environmentScore ≤ 100) ∧
  (0 ≤ m.socialScore ∧ m.socialScore ≤ 100) ∧
  (0 ≤ m.governanceScore ∧ m.governanceScore ≤ 100)

/-- Data-model invariants of an `InvestmentProfile` (spec section 3). -/
def ValidProfile (p : Profile) : Prop :=
  0 ≤ p.desired_return ∧ p.desired_return ≤ 100 ∧
  1 ≤ p.duration ∧ p.duration ≤ 30 ∧
  p.sectors ≠ [] ∧ 1000 ≤ p.budget ∧
  p.dividend_priority ∈ (["0", "1", "2"] : List String) ∧
  (∀ c ∈ p.ethical_considerations,
    c ∈ (["esg", "green", "social", "governance"] : List String)) ∧
  (∀ t ∈ p.investment_types,
    t ∈ (["stocks", "etf", "mutual_funds", "bonds"] : List String))

/-- The comparison underlying `qualified_stocks.sort(reverse=True,
key=lambda x: x[0])` (data_fetcher.py, line 654): `a` may precede `b`
exactly when `a`'s score is at least `b`'s.  The sort key is the score
ALONE — the symbol is not part of the key. -/
def scoreGE (a b : ℚ × Metrics) : Prop := b.1 ≤ a.1

instance : DecidableRel scoreGE :=
  fun a b => inferInstanceAs (Decidable (b.1 ≤ a.1))

instance : IsTotal (ℚ × Metrics) scoreGE :=
  ⟨fun a b => le_total b.1 a.1⟩

instance : IsTrans (ℚ × Metrics) scoreGE :=
  ⟨fun _ _ _ h1 h2 => le_trans h2 h1⟩

/-- Model of Python's stable `list.sort(reverse=True, key=fst)`: the
unique stable weakly-descending permutation, realised by insertion sort
with `scoreGE`. -/
def pySortDesc (l : List (ℚ × Metrics)) : List (ℚ × Metrics) :=
  l.insertionSort scoreGE

/-- Embedding of lines 654-655 of data_fetcher.py: sort the scored
candidates by score descending (stable), keep the first `n`, and return
the metrics dictionaries only. -/
def select (candidates : List (ℚ × Metrics)) (n : ℕ) : List Metrics :=
  ((pySortDesc candidates).take n).map Prod.snd

/-- Scored candidate with the lexicographically larger symbol. -/
def metricsZZZ : Metrics :=
  { symbol := "ZZZ", name := "Z Corp", sector := "tech", industry := "x",
    quoteType := "equity", beta := 1, marketCap := 0,
    regularMarketPrice := 10, dividend_yield := 0,
    historical_return := some 10, volatility := 0, totalEsg := 0,
    environmentScore := 0, socialScore := 0, governanceScore := 0 }

/-- Scored candidate with the lexicographically smaller symbol. -/
def metricsAAA : Metrics :=
  { symbol := "AAA", name := "A Corp", sector := "tech", industry := "x",
    quoteType := "equity", beta := 1, marketCap := 0,
    regularMarketPrice := 10, dividend_yield := 0,
    historical_return := some 10, volatility := 0, totalEsg := 0,
    environmentScore := 0, socialScore := 0, governanceScore := 0 }

/-- State of the persisted cache record for one symbol: no file, an
unreadable/corrupt file (any exception while opening or parsing it), or a
well-formed entry `{'data': ..., 'cache_timestamp': ...}` as written by
`save_to_cache` (cache_handler.py, lines 39-52).  Timestamps are seconds
(`datetime.timestamp()`). -/
inductive CacheFile where
  | absent
  | corrupt
  | entry (data : Metrics) (cache_timestamp : ℚ)
deriving DecidableEq, Repr

/-- Embedding of `CacheHandler.get_cached_data` (cache_handler.py, lines
21-37): a missing file returns `None`; any read/parse exception is caught,
logged and returns `None`; a well-formed entry is served only while
`datetime.now() - cache_time < timedelta(hours=24)`, i.e. `now - t <
86400` seconds. -/
def get_cached_data (f : CacheFile) (now : ℚ) : Option Metrics :=
  match f with
  | .absent => none
  | .corrupt => none
  | .entry d t => if now - t < 86400 then some d else none

/-- Embedding of `fetch_stock_details` (data_fetcher.py, lines 64-149)
over the cache/provider seam: `provider` is the outcome of the yfinance
block (`none` for empty history or any exception), `writeOk` says whether
the `save_to_cache` file write succeeds (a failure is swallowed inside
`save_to_cache`, lines 51-52, leaving the old cache state).  Returns the
served metrics together with the resulting cache state. -/
def fetch_stock_details (cache : CacheFile) (now : ℚ)
    (provider : Option Metrics) (writeOk : Bool) :
    Option Metrics × CacheFile :=
  match get_cached_data cache now with
  | some d => (some d, cache)
  | none =>
    match provider with
    | none => (none, cache)
    | some m => (some m, if writeOk then CacheFile.entry m now else cache)

/-- Universe expansion inside `get_recommendations` (data_fetcher.py,
lines 626-634): for each requested sector, that sector's equities plus —
when `'etf'` is among the requested investment types — that sector's ETFs;
deduplicated by `list(set(...))` (modelled by `dedup`; Python's set
iteration order is arbitrary, so no candidate order is promised). -/
def buildCandidates (p : Profile) : List String :=
  ((p.sectors.map (fun s =>
      get_sector_stocks s ++
        (if "etf" ∈ p.investment_types then get_sector_etfs s else []))).flatten).dedup

/-- The `qualified_stocks` accumulator of `get_recommendations`
(data_fetcher.py, lines 638-647), parametric in the per-symbol resolver
(`fetch_stock_details`, `none` when it fails): every candidate that
resolves and passes the filter, paired with its overall score. -/
def qualifiedStocks (resolve : String → Option Metrics) (p : Profile) :
    List (ℚ × Metrics) :=
  (buildCandidates p).filterMap (fun sym =>
    match resolve sym with
    | none => none
    | some m =>
      if matches_investment_criteria m p then
        some (calculate_overall_score m p, m)
      else none)

/-- Embedding of `get_recommendations` (data_fetcher.py, lines 618-661):
`None` (the 'no matches' signal) when no candidate qualifies, otherwise
the stable score-descending sort truncated to `n` (default 5). -/
def get_recommendations (resolve : String → Option Metrics) (p : Profile)
    (n : ℕ := 5) : Option (List Metrics) :=
  if (qualifiedStocks resolve p).isEmpty then none
  else some (select (qualifiedStocks resolve p) n)

/-- A profile that is invalid per the spec's data model:
`desired_return = 200` is outside 0-100. -/
def profileInvalid : Profile :=
  { risk_level := .medium, desired_return := 200, duration := 10,
    sectors := ["tech"], budget := 5000, dividend_priority := "0",
    ethical_considerations := [], investment_types := ["stocks"] }

/-- A snapshot that passes the filter against `profileInvalid`. -/
def metricsHot : Metrics :=
  { symbol := "AAPL", name := "Apple Inc.", sector := "tech",
    industry := "x", quoteType := "equity", beta := 1,
    marketCap := 0, regularMarketPrice := 150, dividend_yield := 0,
    historical_return := some 60, volatility := 0, totalEsg := 0,
    environmentScore := 0, socialScore := 0, governanceScore := 0 }

theorem char_toNat_ofNat_valid {m : Nat} (h : m.isValidChar) :
    (Char.ofNat m).toNat = m := by
  simp only [Char.ofNat, dif_pos h, Char.ofNatAux, Char.toNat, UInt32.toNat]
  simp

theorem char_toLower_idem (c : Char) :
    Char.toLower (Char.toLower c) = Char.toLower c := by
  simp only [Char.toLower]
  by_cases h : c.toNat ≥ 65 ∧ c.toNat ≤ 90
  · rw [if_pos h]
    have hv : (Char.ofNat (c.toNat + 32)).toNat = c.toNat + 32 :=
      char_toNat_ofNat_valid (Or.inl (by omega))
    rw [if_neg (by rw [hv]; omega)]
  · rw [if_neg h, if_neg h]

theorem pyLower_idem (s : String) : pyLower (pyLower s) = pyLower s := by
  cases s with
  | mk data =>
    simp only [pyLower, List.map_map]
    congr 1
    exact List.map_congr_left fun c _ => char_toLower_idem c

theorem standardize_sector_tech : standardize_sector "tech" = "tech" := by
  decide

/-- Shared characterisation of the filter as the conjunction of its five
rules (for profiles whose `investment_types` is non-empty, matching the
normalisation in `routes.py` that never stores an empty list). -/
theorem matches_iff (m : Metrics) (p : Profile)
    (h : p.investment_types ≠ []) :
    matches_investment_criteria m p = true ↔
      ((∃ t ∈ get_investment_types m.quoteType m.marketCap 0,
          t ∈ p.investment_types) ∧
       standardize_sector m.sector ∈ p.sectors.map standardize_sector ∧
       beta_in_range p.risk_level m.beta ∧
       (1/4) * p.desired_return ≤ m.historical_return.getD 0 ∧
       (p.dividend_priority = "2" → 3/2 ≤ m.dividend_yield) ∧
       (p.dividend_priority = "1" → 3/10 ≤ m.dividend_yield)) := by
  have hne : ¬ p.investment_types.isEmpty := by
    simpa using h
  simp only [matches_investment_criteria, if_neg hne]
  constructor
  · intro hm
    split_ifs at hm with h1 h2 h3 h4 h5 h6
    push_neg at h1 h2 h3 h4 h5 h6
    refine ⟨?_, h2, h3, by linarith [h4], h5, h6⟩
    obtain ⟨t, ht, htv⟩ := List.any_eq_true.mp h1
    exact ⟨t, ht, by simpa using htv⟩
  · rintro ⟨⟨t, ht, htv⟩, hsec, hbeta, hret, hdiv2, hdiv1⟩
    have hd2 : ¬ (p.dividend_priority = "2" ∧ m.dividend_yield < 3/2) := by
      rintro ⟨hp, hlt⟩
      exact absurd (hdiv2 hp) (not_le.mpr hlt)
    have hd1 : ¬ (p.dividend_priority = "1" ∧ m.dividend_yield < 3/10) := by
      rintro ⟨hp, hlt⟩
      exact absurd (hdiv1 hp) (not_le.mpr hlt)
    rw [if_neg (by simp; exact ⟨t, ht, htv⟩), if_neg (by simp [hsec]), if_neg (by simp [hbeta]),
      if_neg (by push_neg; linarith), if_neg hd2, if_neg hd1]

theorem beta_in_range_iff (rl : RiskLevel) (b : ℚ) :
    beta_in_range rl b ↔
      ((rl = .low → b ≤ 11/10) ∧
       (rl = .medium → 7/10 ≤ b ∧ b ≤ 14/10) ∧
       (rl = .high → 9/10 ≤ b)) := by
  cases rl <;> simp [beta_in_range]

/-- C2: the criteria filter returns true iff all five rules hold — the
derived instrument-type set intersects `investment_types`; the
standardized sector is among the standardized profile sectors; beta lies
in the risk band (low → (−∞, 11/10], medium → [7/10, 14/10],
high → [9/10, ∞)); `historical_return` (NaN treated as 0) is at least a
quarter of `desired_return`; and the dividend floor (3/2 for priority
`'2'`, 3/10 for `'1'`, none otherwise) is met. -/
theorem matches_investment_criteria_iff_rules (m : Metrics) (p : Profile)
    (h : p.investment_types ≠ []) :
    matches_investment_criteria m p = true ↔
      ((∃ t ∈ get_investment_types m.quoteType m.marketCap 0,
          t ∈ p.investment_types) ∧
       standardize_sector m.sector ∈ p.sectors.map standardize_sector ∧
       ((p.risk_level = .low → m.beta ≤ 11/10) ∧
        (p.risk_level = .medium → 7/10 ≤ m.beta ∧ m.beta ≤ 14/10) ∧
        (p.risk_level = .high → 9/10 ≤ m.beta)) ∧
       (25/100) * p.desired_return ≤ m.historical_return.getD 0 ∧
       ((p.dividend_priority = "2" → 3/2 ≤ m.dividend_yield) ∧
        (p.dividend_priority = "1" → 3/10 ≤ m.dividend_yield))) := by
  have h25 : ((25:ℚ)/100) * p.desired_return = (1/4) * p.desired_return := by
    ring
  rw [h25, ← beta_in_range_iff]
  exact matches_iff m p h

/-- Witness for C2 at a concrete input: `profileA` has a non-empty
`investment_types` and `metricsA` satisfies the five rules, hence passes. -/
theorem matches_investment_criteria_iff_rules_witness :
    matches_investment_criteria metricsA profileA = true :=
  (matches_investment_criteria_iff_rules metricsA profileA
      (by simp only [profileA]; decide)).mpr
    (by
      simp only [profileA, metricsA]
      refine ⟨⟨"stocks", ?_, ?_⟩, ?_, ⟨fun _ => by norm_num, ?_, ?_⟩,
        by norm_num, ?_, ?_⟩ <;> decide)

theorem standardize_sector_eq_tech_of_key (x : String)
    (h : pyLower x = "technology" ∨ pyLower x = "information technology" ∨
      pyLower x = "it services" ∨ pyLower x = "semiconductors" ∨
      pyLower x = "software" ∨ pyLower x = "communication services" ∨
      pyLower x = "internet content & information" ∨
      pyLower x = "electronic components" ∨
      pyLower x = "semiconductor equipment & materials" ∨
      pyLower x = "computer hardware") :
    standardize_sector x = "tech" := by
  simp only [standardize_sector]
  split_ifs <;>
    first
      | rfl
      | (exfalso; rcases h with h|h|h|h|h|h|h|h|h|h <;> contradiction)

/-- C9: Sector standardization is a pure idempotent function: for every
string `x`, `standardize_sector (standardize_sector x) = standardize_sector x`. -/
theorem standardize_sector_idempotent (x : String) :
    standardize_sector (standardize_sector x) = standardize_sector x := by
  by_cases h : standardize_sector x = "tech"
  · rw [h]
    exact standardize_sector_tech
  · have hx : standardize_sector x = pyLower x := by
      simp only [standardize_sector] at h ⊢
      split_ifs at h ⊢ <;> first | rfl | exact absurd rfl h
    rw [hx]
    simp only [standardize_sector, pyLower_idem]
    split_ifs with k1 k2 k3 k4 k5 k6 k7 k8 k9 k10
    all_goals first
      | rfl
      | (exfalso; exact h (standardize_sector_eq_tech_of_key x (by tauto)))

theorem matches_beta_return (m : Metrics) (p : Profile)
    (hm : matches_investment_criteria m p = true) :
    beta_in_range p.risk_level m.beta ∧
      (1/4) * p.desired_return ≤ m.historical_return.getD 0 := by
  simp only [matches_investment_criteria] at hm
  split_ifs at hm with h0 h1 h2 h3 h4 h5 h6 h7 h8 h9 h10 h11 h12
  · push_neg at h3 h4
    exact ⟨h3, by linarith⟩
  · push_neg at h9 h10
    exact ⟨h9, by linarith⟩

theorem riskScore_bounds (m : Metrics) (p : Profile) (hb : 0 ≤ m.beta)
    (hr : beta_in_range p.risk_level m.beta) :
    0 ≤ riskScore m p ∧ riskScore m p ≤ 1 := by
  rcases h : p.risk_level with _ | _ | _ <;>
    (rw [h] at hr; simp only [beta_in_range] at hr; simp only [riskScore, h])
  · exact ⟨le_max_left 0 _, max_le (by norm_num) (by linarith)⟩
  · obtain ⟨h1, h2⟩ := hr
    have habs : |m.beta - 1| ≤ 4/10 := abs_le.mpr ⟨by linarith, by linarith⟩
    have habs0 : 0 ≤ |m.beta - 1| := abs_nonneg _
    constructor <;> linarith
  · exact ⟨le_min (by linarith) (by norm_num), min_le_right _ _⟩

theorem returnScore_bounds (m : Metrics) (p : Profile)
    (ht : 0 ≤ p.desired_return)
    (hr : (1/4) * p.desired_return ≤ m.historical_return.getD 0) :
    0 ≤ returnScore m p ∧ returnScore m p ≤ 1 := by
  cases hh : m.historical_return with
  | none =>
    simp only [returnScore, hh]
    norm_num
  | some h =>
    rw [hh] at hr
    simp only [Option.getD_some] at hr
    simp only [returnScore, hh]
    by_cases hge : h ≥ p.desired_return
    · rw [if_pos hge]
      norm_num
    · rw [if_neg hge]
      push_neg at hge
      refine ⟨le_trans (by norm_num) (le_max_left _ _), max_le (by norm_num) ?_⟩
      rcases lt_or_eq_of_le ht with h0 | h0
      · exact le_of_lt ((div_lt_one h0).mpr hge)
      · exfalso
        rw [← h0] at hr hge
        linarith

theorem sectorScore_bounds (m : Metrics) (p : Profile) :
    0 ≤ sectorScore m p ∧ sectorScore m p ≤ 1 := by
  unfold sectorScore
  split_ifs <;> norm_num

theorem dividendScore_bounds (m : Metrics) (p : Profile)
    (hd : 0 ≤ m.dividend_yield) :
    0 ≤ dividendScore m p ∧ dividendScore m p ≤ 1 := by
  unfold dividendScore
  split_ifs
  · exact ⟨le_min (div_nonneg hd (by norm_num)) (by norm_num), min_le_right _ _⟩
  · exact ⟨le_min (div_nonneg hd (by norm_num)) (by norm_num), min_le_right _ _⟩
  · norm_num

theorem ethicalScore_bounds (m : Metrics) (p : Profile)
    (hm : ValidMetrics m) :
    0 ≤ ethicalScore m p ∧ ethicalScore m p ≤ 1 := by
  obtain ⟨_, _, _, _, he1, he2, he3, he4⟩ := hm
  unfold ethicalScore
  by_cases he : p.ethical_considerations.isEmpty
  · rw [if_pos he]
    norm_num
  · rw [if_neg he]
    simp only
    set es := p.ethical_considerations.filterMap (fun c =>
      if c = "esg" then some (m.totalEsg / 100)
      else if c = "green" then some (m.environmentScore / 100)
      else if c = "social" then some (m.socialScore / 100)
      else if c = "governance" then some (m.governanceScore / 100)
      else none) with hes
    by_cases h0 : es.isEmpty
    · rw [if_pos h0]
      norm_num
    · rw [if_neg h0]
      have helem : ∀ x ∈ es, 0 ≤ x ∧ x ≤ 1 := by
        intro x hx
        rw [hes] at hx
        obtain ⟨c, _, hcx⟩ := List.mem_filterMap.mp hx
        split_ifs at hcx <;>
          first
            | exact Option.noConfusion hcx
            | (obtain rfl := Option.some.inj hcx
               constructor
               · apply div_nonneg _ (by norm_num)
                 first | exact he1.1 | exact he2.1 | exact he3.1 | exact he4.1
               · rw [div_le_one (by norm_num)]
                 first | exact he1.2 | exact he2.2 | exact he3.2 | exact he4.2)
      have hlen : 0 < (es.length : ℚ) := by
        have hne : es ≠ [] := by simpa using h0
        exact_mod_cast List.length_pos.mpr hne
      constructor
      · exact div_nonneg (List.sum_nonneg fun x hx => (helem x hx).1) hlen.le
      · rw [div_le_one hlen]
        have := List.sum_le_card_nsmul es 1 (fun x hx => (helem x hx).2)
        simpa [nsmul_eq_mul] using this

/-- C1: the six scoring weights sum to exactly 1; for every metrics
snapshot satisfying the data-model invariants that passed the criteria
filter, and every valid profile, the overall score lies in [0, 1], and in
particular the risk sub-score lies in [0, 1] before weighting. -/
theorem calculate_overall_score_bounds (m : Metrics) (p : Profile)
    (hm : ValidMetrics m) (hp : ValidProfile p)
    (hpass : matches_investment_criteria m p = true) :
    (weights.map Prod.snd).sum = 1 ∧
    0 ≤ calculate_overall_score m p ∧ calculate_overall_score m p ≤ 1 ∧
    0 ≤ riskScore m p ∧ riskScore m p ≤ 1 := by
  obtain ⟨hbeta, hret⟩ := matches_beta_return m p hpass
  have h1 := riskScore_bounds m p hm.1 hbeta
  have h2 := returnScore_bounds m p hp.1 hret
  have h3 := sectorScore_bounds m p
  have h4 := dividendScore_bounds m p hm.2.1
  have h5 := ethicalScore_bounds m p hm
  refine ⟨by norm_num [weights], ?_, ?_, h1.1, h1.2⟩ <;>
    (unfold calculate_overall_score; linarith [h1.1, h1.2, h2.1, h2.2,
      h3.1, h3.2, h4.1, h4.2, h5.1, h5.2])

/-- Witness for C1 at a concrete input: `metricsA` (valid, filter-passing)
and `profileA` (valid) give an overall score inside [0, 1]. -/
theorem calculate_overall_score_bounds_witness :
    0 ≤ calculate_overall_score metricsA profileA ∧
      calculate_overall_score metricsA profileA ≤ 1 :=
  have hvm : ValidMetrics metricsA := by
    simp only [ValidMetrics, metricsA]
    norm_num
  have hvp : ValidProfile profileA := by
    simp only [ValidProfile, profileA]
    refine ⟨by norm_num, by norm_num, by norm_num, by norm_num, by simp,
      by norm_num, by simp, by simp, by simp⟩
  have hpass : matches_investment_criteria metricsA profileA = true :=
    (matches_iff metricsA profileA (by simp only [profileA]; decide)).mpr
      (by
        simp only [profileA, metricsA]
        refine ⟨⟨"stocks", by decide, by decide⟩, by decide,
          by simp only [beta_in_range]; norm_num, by norm_num,
          by decide, by decide⟩)
  ⟨(calculate_overall_score_bounds metricsA profileA hvm hvp hpass).2.1,
   (calculate_overall_score_bounds metricsA profileA hvm hvp hpass).2.2.1⟩

theorem pySortDesc_stable (q : ℚ) (l : List (ℚ × Metrics)) :
    (pySortDesc l).filter (fun y => y.1 == q) =
      l.filter (fun y => y.1 == q) := by
  have hmemq : ∀ x ∈ l.filter (fun y => y.1 == q), x.1 = q := by
    intro x hx
    exact beq_iff_eq.mp (List.mem_filter.mp hx).2
  have hpw : (l.filter (fun y => y.1 == q)).Pairwise scoreGE :=
    List.pairwise_of_forall_mem_list (fun a ha b hb => by
      unfold scoreGE
      rw [hmemq a ha, hmemq b hb])
  have hsub : (l.filter (fun y => y.1 == q)).Sublist (pySortDesc l) :=
    List.sublist_insertionSort hpw (List.filter_sublist l)
  have hsub2 : (l.filter (fun y => y.1 == q)).Sublist
      ((pySortDesc l).filter (fun y => y.1 == q)) := by
    have h2 := List.Sublist.filter (fun y => y.1 == q) hsub
    simpa [List.filter_filter] using h2
  have hperm :=
    (List.perm_insertionSort scoreGE l).filter (fun y => y.1 == q)
  exact (hsub2.eq_of_length hperm.length_eq.symm).symm

/-- C3 (amended): the selection stage sorts the scored candidates by score
descending with a STABLE sort — candidates with exactly equal scores keep
their input order, because the sort key is the score alone and there is no
symbol tie-break — and returns the metrics of the first `n`. -/
theorem select_stable_sort_desc (l : List (ℚ × Metrics)) (n : ℕ) (q : ℚ) :
    (pySortDesc l).Perm l ∧
    (pySortDesc l).Sorted scoreGE ∧
    (pySortDesc l).filter (fun y => y.1 == q) =
      l.filter (fun y => y.1 == q) ∧
    select l n = ((pySortDesc l).take n).map Prod.snd :=
  ⟨List.perm_insertionSort scoreGE l, List.sorted_insertionSort scoreGE l,
   pySortDesc_stable q l, rfl⟩

/-- Counterexample to C3 as stated: two candidates score exactly 81/100
each; fed in the order ZZZ, AAA, the selection keeps ZZZ first — it does
NOT break the tie by symbol ascending ("AAA" < "ZZZ" lexicographically). -/
theorem select_tie_not_symbol_asc :
    (select [(81/100, metricsZZZ), (81/100, metricsAAA)] 5).map
        Metrics.symbol = ["ZZZ", "AAA"] ∧
      ("AAA" : String) < "ZZZ" := by
  constructor
  · simp only [select, pySortDesc, List.insertionSort, List.orderedInsert,
      scoreGE, le_refl, if_true, List.take, List.map, metricsZZZ, metricsAAA]
  · have hd : List.Lex (· < ·) ("AAA" : String).toList ("ZZZ" : String).toList :=
      List.Lex.rel (by decide)
    exact String.lt_iff_toList_lt.mpr hd

/-- C4: the cache get returns `some` exactly when an entry exists and
`now - fetched_at < 24h`; an entry fetched at `t0` is still served at
`t0 + 23h59m` (86340 s) and is a miss at `t0 + 24h01m` (86460 s); a
corrupt or absent record is a miss, never an error. -/
theorem get_cached_data_spec (f : CacheFile) (now : ℚ) :
    (∀ d, get_cached_data f now = some d ↔
      ∃ t, f = CacheFile.entry d t ∧ now - t < 86400) ∧
    (∀ d t0, get_cached_data (CacheFile.entry d t0) (t0 + 86340) = some d) ∧
    (∀ d t0, get_cached_data (CacheFile.entry d t0) (t0 + 86460) = none) ∧
    get_cached_data CacheFile.corrupt now = none ∧
    get_cached_data CacheFile.absent now = none := by
  refine ⟨?_, ?_, ?_, rfl, rfl⟩
  · intro d
    constructor
    · intro h
      cases f with
      | absent => exact Option.noConfusion h
      | corrupt => exact Option.noConfusion h
      | entry d' t =>
        simp only [get_cached_data] at h
        split_ifs at h with ht
        obtain rfl := Option.some.inj h
        exact ⟨t, rfl, ht⟩
    · rintro ⟨t, rfl, ht⟩
      simp only [get_cached_data]
      rw [if_pos ht]
  · intro d t0
    simp only [get_cached_data]
    rw [if_pos (by linarith)]
  · intro d t0
    simp only [get_cached_data]
    rw [if_neg (by push_neg; linarith)]

/-- C5: the resolver serves a fresh cache hit as-is; on a miss it returns
exactly the provider outcome (`none` on provider failure); on a miss with
provider success it stores the fetched entry when the write succeeds, and
a failed cache write is non-fatal — the served metrics do not depend on
`writeOk`. -/
theorem fetch_stock_details_spec (cache : CacheFile) (now : ℚ)
    (provider : Option Metrics) (w : Bool) :
    ((fetch_stock_details cache now provider true).1 =
      (fetch_stock_details cache now provider false).1) ∧
    (∀ d, get_cached_data cache now = some d →
      fetch_stock_details cache now provider w = (some d, cache)) ∧
    (get_cached_data cache now = none →
      (fetch_stock_details cache now provider w).1 = provider) ∧
    (∀ m, get_cached_data cache now = none → provider = some m →
      fetch_stock_details cache now provider w =
        (some m, if w then CacheFile.entry m now else cache)) := by
  refine ⟨?_, ?_, ?_, ?_⟩
  · cases hc : get_cached_data cache now <;> cases provider <;>
      simp [fetch_stock_details, hc]
  · intro d hd
    simp [fetch_stock_details, hd]
  · intro h
    cases provider <;> simp [fetch_stock_details, h]
  · intro m h hm
    subst hm
    simp [fetch_stock_details, h]

/-- Witness for C5 at a concrete input: empty cache, provider succeeds,
cache write fails — the freshly fetched metrics are still served and the
cache is left untouched. -/
theorem fetch_stock_details_spec_witness :
    fetch_stock_details CacheFile.absent 0 (some metricsA) false =
      (some metricsA, CacheFile.absent) := by
  have h := (fetch_stock_details_spec CacheFile.absent 0
    (some metricsA) false).2.2.2 metricsA rfl rfl
  simpa using h

/-- C8: a symbol is in the candidate universe iff some requested sector
contributes it through its equity list, or through its ETF list when
`'etf'` was requested; the universe is deduplicated; a sector tag absent
from the taxonomy contributes the empty set rather than an error. -/
theorem candidate_universe_spec (p : Profile) (sym : String) (s : String)
    (hs : pyLower s ∉ known_sectors) :
    (sym ∈ buildCandidates p ↔
      ∃ sec ∈ p.sectors, sym ∈ get_sector_stocks sec ∨
        ("etf" ∈ p.investment_types ∧ sym ∈ get_sector_etfs sec)) ∧
    (buildCandidates p).Nodup ∧
    get_sector_stocks s = [] ∧ get_sector_etfs s = [] := by
  have hns : pyLower s ≠ "tech" ∧ pyLower s ≠ "healthcare" ∧
      pyLower s ≠ "finance" ∧ pyLower s ≠ "energy" ∧
      pyLower s ≠ "consumer" ∧ pyLower s ≠ "real_estate" ∧
      pyLower s ≠ "utilities" := by
    simp only [known_sectors, List.mem_cons, List.not_mem_nil, or_false] at hs
    push_neg at hs
    exact hs
  obtain ⟨n1, n2, n3, n4, n5, n6, n7⟩ := hns
  refine ⟨?_, List.nodup_dedup _, ?_, ?_⟩
  · simp only [buildCandidates, List.mem_dedup, List.mem_flatten, List.mem_map]
    constructor
    · rintro ⟨l, ⟨sec, hsec, rfl⟩, hmem⟩
      rcases List.mem_append.mp hmem with h | h
      · exact ⟨sec, hsec, Or.inl h⟩
      · by_cases he : "etf" ∈ p.investment_types
        · rw [if_pos he] at h
          exact ⟨sec, hsec, Or.inr ⟨he, h⟩⟩
        · rw [if_neg he] at h
          exact absurd h (List.not_mem_nil sym)
    · rintro ⟨sec, hsec, h | ⟨he, h⟩⟩
      · exact ⟨_, ⟨sec, hsec, rfl⟩, List.mem_append.mpr (Or.inl h)⟩
      · refine ⟨_, ⟨sec, hsec, rfl⟩, List.mem_append.mpr (Or.inr ?_)⟩
        rw [if_pos he]
        exact h
  · simp only [get_sector_stocks]
    rw [if_neg n1, if_neg n2, if_neg n3, if_neg n4, if_neg n5, if_neg n6,
      if_neg n7]
  · simp only [get_sector_etfs]
    rw [if_neg n1, if_neg n2, if_neg n3, if_neg n4, if_neg n5, if_neg n6,
      if_neg n7]

/-- Witness for C8 at a concrete input: the unknown sector tag `'foo'`
contributes empty equity and ETF lists. -/
theorem candidate_universe_spec_witness :
    get_sector_stocks "foo" = [] ∧ get_sector_etfs "foo" = [] :=
  ⟨(candidate_universe_spec profileA "AAPL" "foo" (by decide)).2.2.1,
   (candidate_universe_spec profileA "AAPL" "foo" (by decide)).2.2.2⟩

/-- C6: the entry point returns the distinguished `none` ('no matches')
exactly when no candidate resolves and qualifies; whenever some candidate
qualifies it returns a non-empty list of at most `n` recommendations, and
the default for `n` is 5. -/
theorem get_recommendations_no_matches (resolve : String → Option Metrics)
    (p : Profile) (n : ℕ) (hn : 0 < n) :
    (get_recommendations resolve p n = none ↔
      ∀ sym ∈ buildCandidates p, ∀ m, resolve sym = some m →
        matches_investment_criteria m p = false) ∧
    (∀ l, get_recommendations resolve p n = some l →
      l ≠ [] ∧ l.length ≤ n) ∧
    get_recommendations resolve p = get_recommendations resolve p 5 := by
  refine ⟨⟨?_, ?_⟩, ?_, rfl⟩
  · intro h sym hsym m hm
    by_cases hq : (qualifiedStocks resolve p).isEmpty
    · have hnil : qualifiedStocks resolve p = [] := List.isEmpty_iff.mp hq
      have hsymnil := (List.filterMap_eq_nil_iff.mp hnil) sym hsym
      simp only [hm] at hsymnil
      cases hmc : matches_investment_criteria m p with
      | false => rfl
      | true => simp [hmc] at hsymnil
    · rw [get_recommendations, if_neg hq] at h
      exact Option.noConfusion h
  · intro hall
    have hnil : qualifiedStocks resolve p = [] := by
      apply List.filterMap_eq_nil_iff.mpr
      intro sym hsym
      cases hr : resolve sym with
      | none => simp [hr]
      | some m => simp [hr, hall sym hsym m hr]
    simp [get_recommendations, hnil]
  · intro l hl
    by_cases hq : (qualifiedStocks resolve p).isEmpty
    · rw [get_recommendations, if_pos hq] at hl
      exact Option.noConfusion hl
    · rw [get_recommendations, if_neg hq] at hl
      obtain rfl := (Option.some.inj hl).symm
      have hqne : qualifiedStocks resolve p ≠ [] := by
        simpa [List.isEmpty_iff] using hq
      have hsne : pySortDesc (qualifiedStocks resolve p) ≠ [] := by
        intro hcon
        apply hqne
        have hlen := (List.perm_insertionSort scoreGE
          (qualifiedStocks resolve p)).length_eq
        rw [show pySortDesc (qualifiedStocks resolve p) =
          List.insertionSort scoreGE (qualifiedStocks resolve p) from rfl] at hcon
        rw [hcon] at hlen
        exact List.length_eq_zero.mp hlen.symm
      constructor
      · intro hcon
        simp only [select] at hcon
        rw [List.map_eq_nil_iff, List.take_eq_nil_iff] at hcon
        rcases hcon with h0 | hnil2
        · omega
        · exact hsne hnil2
      · simp only [select, List.length_map, List.length_take]
        exact inf_le_left

/-- Witness for C6 at a concrete input: a resolver that fails for every
symbol yields the 'no matches' signal, via the characterisation. -/
theorem get_recommendations_no_matches_witness :
    get_recommendations (fun _ => none) profileA 5 = none :=
  (get_recommendations_no_matches (fun _ => none) profileA 5
    (by norm_num)).1.mpr (fun _ _ m hm => Option.noConfusion hm)

/-- C7 (amended): the entry point performs no profile validation; the one
documented coercion — `investment_types` defaulting to `{stocks}` when
empty — happens inside the criteria filter and is behaviourally exactly
the substitution of `["stocks"]` for the empty list. -/
theorem investment_types_default_coercion (m : Metrics) (p : Profile)
    (h : p.investment_types = []) :
    matches_investment_criteria m p =
      matches_investment_criteria m
        { p with investment_types := ["stocks"] } := by
  obtain ⟨rl, dr, du, se, bu, dp, ec, it⟩ := p
  replace h : it = [] := h
  subst h
  rfl

/-- Witness for C7's amended claim at a concrete input. -/
theorem investment_types_default_coercion_witness :
    matches_investment_criteria metricsA
        { profileA with investment_types := [] } =
      matches_investment_criteria metricsA
        { { profileA with investment_types := [] } with
            investment_types := ["stocks"] } :=
  investment_types_default_coercion metricsA
    { profileA with investment_types := [] } rfl

/-- Counterexample to C7 as stated: an invalid profile (desired_return =
200, out of the 0-100 range) is NOT rejected — universe expansion, the
filter and scoring all run, and the request succeeds with a non-empty
recommendation list. -/
theorem invalid_profile_not_rejected :
    profileInvalid.desired_return > 100 ∧
    get_recommendations (fun _ => some metricsHot) profileInvalid 5 =
      some [metricsHot, metricsHot, metricsHot, metricsHot, metricsHot] := by
  have hmatch : matches_investment_criteria metricsHot profileInvalid = true :=
    (matches_iff metricsHot profileInvalid
        (by simp only [profileInvalid]; decide)).mpr
      (by
        simp only [profileInvalid, metricsHot]
        refine ⟨⟨"stocks", by decide, by decide⟩, by decide,
          by simp only [beta_in_range]; norm_num, by norm_num,
          by decide, by decide⟩)
  have hcand : buildCandidates profileInvalid =
      ["AAPL", "MSFT", "GOOGL", "META", "NVDA", "AMD", "INTC", "CSCO",
       "ADBE", "CRM", "TSM", "AVGO", "ORCL", "ACN", "ASML", "TXN", "QCOM",
       "IBM", "NOW", "INTU", "ADI", "MU", "AMAT", "LRCX", "SNPS", "CDNS",
       "KLAC", "PANW", "WDAY", "TEAM"] := by
    decide
  refine ⟨by simp only [profileInvalid]; norm_num, ?_⟩
  simp only [get_recommendations, qualifiedStocks, hcand,
    List.filterMap_cons, List.filterMap_nil, hmatch, eq_self_iff_true,
    if_true, List.isEmpty_cons, Bool.false_eq_true, if_false, select,
    pySortDesc, List.insertionSort, List.orderedInsert, scoreGE, le_refl,
    List.take_succ_cons, List.take_zero, List.map_cons, List.map_nil]

/-- C10: the profile fields `budget` and `duration` never influence the
filter verdict, the score, or the recommendation list. -/
theorem budget_duration_noninterference (p : Profile) (b : ℚ) (d : ℤ)
    (m : Metrics) (resolve : String → Option Metrics) (n : ℕ) :
    matches_investment_criteria m { p with budget := b, duration := d } =
      matches_investment_criteria m p ∧
    calculate_overall_score m { p with budget := b, duration := d } =
      calculate_overall_score m p ∧
    get_recommendations resolve { p with budget := b, duration := d } n =
      get_recommendations resolve p n := by
  obtain ⟨rl, dr, du, se, bu, dp, ec, it⟩ := p
  exact ⟨rfl, rfl, rfl⟩
